import Mathlib

/- Verification of the ONC RPC / NFS client of this repository against its
   specification.

   The development shallowly embeds the two concatenated C files found in
   src/src/net/oncrpc/nfs_open.c (the NFS-open driver nfs_open.c and the ONC
   RPC session layer oncrpc.c) and the parts of the callback-chain variant
   that the claims reference.  Bytes are lists of natural numbers; 32-bit
   machine integers are Nat with explicit reduction modulo 2^32 wherever the
   C type uint32_t can overflow; C return codes are Int (0 success, negative
   errno on failure).  Functions of the environment (the transport window,
   the transport delivery result, decoded reply fields produced by helper
   files absent from src/) are passed in as explicit parameters. -/

/-! ## XDR / io_buffer byte layer (oncrpc.c together with the missing
    header ipxe/oncrpc_iob.h) -/

/-- Big-endian serialisation of a 32-bit value, as produced by htonl
followed by a four-byte store.  For arguments at or above 2^32 the four
bytes encode the low 32 bits, matching the uint32_t truncation performed
by the C prototypes. -/
def be32 (n : Nat) : List Nat :=
  [n / 2 ^ 24 % 256, n / 2 ^ 16 % 256, n / 2 ^ 8 % 256, n % 256]

/-- Modelled from the spec: oncrpc_iob_add_int lives in the header
ipxe/oncrpc_iob.h, which is not under src/.  Per spec section 4.1 a u32 is
appended as 4 big-endian bytes, and the function returns the byte count 4. -/
def oncrpc_iob_add_int (io_buf : List Nat) (val : Nat) : List Nat × Nat :=
  (io_buf ++ be32 val, 4)

/-- Modelled from the spec: oncrpc_iob_get_int (header ipxe/oncrpc_iob.h,
not under src/) removes a big-endian u32 from the front of the buffer and
returns it. -/
def oncrpc_iob_get_int (io_buf : List Nat) : Nat × List Nat :=
  match io_buf with
  | b0 :: b1 :: b2 :: b3 :: rest => (((b0 * 256 + b1) * 256 + b2) * 256 + b3, rest)
  | rest => (0, rest)

/-- The padding loop of oncrpc_iob_add_string.  The cursor k stands for
s - val; the source is: while ( ( s++ - val ) % 4 != 0 ) append a NUL
byte.  Because the increment is a post-increment, s is incremented once
more on the final (failing) test, so the returned cursor is one past the
last tested position.  Returns the appended padding and the final cursor. -/
def stringPadLoop (k : Nat) : List Nat × Nat :=
  if k % 4 = 0 then ([], k + 1)
  else
    let r := stringPadLoop (k + 1)
    (0 :: r.1, r.2)
termination_by (4 - k % 4) % 4
decreasing_by
  simp_wf
  omega

/-- oncrpc_iob_add_string: appends strlen(val) as a u32, then each byte of
val, then NUL padding to a 4-byte boundary via the post-increment loop,
and returns ( ( s - val ) - 1 + sizeof ( uint32_t ) ).  The argument val
models the content of the NUL-terminated C string. -/
def oncrpc_iob_add_string (io_buf : List Nat) (val : List Nat) : List Nat × Nat :=
  let b1 := (oncrpc_iob_add_int io_buf val.length).1
  let b2 := b1 ++ val
  let r := stringPadLoop val.length
  (b2 ++ r.1, r.2 - 1 + 4)

/-- oncrpc_iob_add_intarray: appends the element count as a u32 followed by
each element, and returns ( size + 1 ) * sizeof ( uint32_t ). -/
def oncrpc_iob_add_intarray (io_buf : List Nat) (array : List Nat) : List Nat × Nat :=
  let b1 := (oncrpc_iob_add_int io_buf array.length).1
  (array.foldl (fun b x => (oncrpc_iob_add_int b x).1) b1, (array.length + 1) * 4)

def ONCRPC_AUTH_NONE : Nat := 0
def ONCRPC_AUTH_SYS : Nat := 1

structure oncrpc_cred_sys where
  stamp : Nat
  hostname : List Nat
  uid : Nat
  gid : Nat
  aux_gid : List Nat
deriving DecidableEq

/-- struct oncrpc_cred, together with the oncrpc_cred_sys fields that
oncrpc_iob_add_cred reads through the cast when flavor is AUTH_SYS. -/
structure oncrpc_cred where
  flavor : Nat
  length : Nat
  sys : oncrpc_cred_sys
deriving DecidableEq

/-- oncrpc_iob_add_cred: flavor and declared length, then for AUTH_SYS the
stamp, hostname string, uid, gid and auxiliary gid array; the switch has no
default case, so an unknown flavor appends nothing further.  Returns the
accumulated byte counts of the individual appends. -/
def oncrpc_iob_add_cred (io_buf : List Nat) (cred : oncrpc_cred) : List Nat × Nat :=
  let r1 := oncrpc_iob_add_int io_buf cred.flavor
  let r2 := oncrpc_iob_add_int r1.1 cred.length
  if cred.flavor = ONCRPC_AUTH_NONE then
    (r2.1, r1.2 + r2.2)
  else if cred.flavor = ONCRPC_AUTH_SYS then
    let r3 := oncrpc_iob_add_int r2.1 cred.sys.stamp
    let r4 := oncrpc_iob_add_string r3.1 cred.sys.hostname
    let r5 := oncrpc_iob_add_int r4.1 cred.sys.uid
    let r6 := oncrpc_iob_add_int r5.1 cred.sys.gid
    let r7 := oncrpc_iob_add_intarray r6.1 cred.sys.aux_gid
    (r7.1, r1.2 + r2.2 + r3.2 + r4.2 + r5.2 + r6.2 + r7.2)
  else
    (r2.1, r1.2 + r2.2)

/-! ## ONC RPC session layer (oncrpc.c) -/

def ONCRPC_CALL : Nat := 0
def ONCRPC_REPLY : Nat := 1
def ONCRPC_VERS : Nat := 2

/-- SET_LAST_FRAME ( x ): x |= 1 << 31. -/
def SET_LAST_FRAME (x : Nat) : Nat := x ||| 2 ^ 31

/-- GET_FRAME_SIZE ( x ): x & ~( 1 << 31 ), i.e. on a uint32_t the value
with bit 31 cleared. -/
def GET_FRAME_SIZE (x : Nat) : Nat := x % 2 ^ 31

/-- struct oncrpc_session: transaction id counter, program identity,
credential and verifier, the pending-call queue (encoded frames, most
recently queued first because oncrpc_call_iob uses list_add) and the
pending-reply list of (rpc_id, callback) pairs, callbacks being modelled
by identifiers. -/
structure oncrpc_session where
  rpc_id : Nat
  prog_name : Nat
  prog_vers : Nat
  credential : oncrpc_cred
  verifier : oncrpc_cred
  pending_call : List (List Nat)
  pending_reply : List (Nat × Nat)

/-- One frame_size += step of oncrpc_call_iob: run the append on the
buffer and accumulate its returned size into the uint32_t frame_size. -/
def addStep (bf : List Nat × Nat) (g : List Nat → List Nat × Nat) : List Nat × Nat :=
  ((g bf.1).1, (bf.2 + (g bf.1).2) % 2 ^ 32)

/-- The call buffer built by oncrpc_call_iob before the payload copy: the
4 reserved record-marking bytes (iob_put before any write, later
overwritten), then xid (session->rpc_id), direction ONCRPC_CALL, RPC
version, program, program version, procedure, credential and verifier.
Returns the buffer and the accumulated frame_size. -/
def oncrpc_call_header (s : oncrpc_session) (proc_name : Nat) : List Nat × Nat :=
  addStep (addStep (addStep (addStep (addStep (addStep (addStep (addStep
    ([0, 0, 0, 0], 0)
    (fun b => oncrpc_iob_add_int b s.rpc_id))
    (fun b => oncrpc_iob_add_int b ONCRPC_CALL))
    (fun b => oncrpc_iob_add_int b ONCRPC_VERS))
    (fun b => oncrpc_iob_add_int b s.prog_name))
    (fun b => oncrpc_iob_add_int b s.prog_vers))
    (fun b => oncrpc_iob_add_int b proc_name))
    (fun b => oncrpc_iob_add_cred b s.credential))
    (fun b => oncrpc_iob_add_cred b s.verifier)

/-- The payload P of a call record: everything in the record after the
4-byte record-marking header, i.e. the RPC call header, credential,
verifier and the procedure arguments io_buf. -/
def oncrpc_call_payload (s : oncrpc_session) (proc_name : Nat) (io_buf : List Nat) : List Nat :=
  (oncrpc_call_header s proc_name).1.drop 4 ++ io_buf

/-- The complete record handed to the transport by oncrpc_call_iob:
frame_size += iob_len ( io_buf ); SET_LAST_FRAME ( frame_size );
* ( uint32_t * ) call_buf->data = htonl ( frame_size ); then the payload
bytes and the copied procedure arguments. -/
def oncrpc_call_frame (s : oncrpc_session) (proc_name : Nat) (io_buf : List Nat) : List Nat :=
  be32 (SET_LAST_FRAME (((oncrpc_call_header s proc_name).2 + io_buf.length) % 2 ^ 32)) ++
    (oncrpc_call_header s proc_name).1.drop 4 ++ io_buf

/-- oncrpc_call_iob.  window models xfer_window ( &session->intf ) and
deliver_rc the result of xfer_deliver_iob.  The source builds the frame
(post-incrementing session->rpc_id), then: if the window is closed it
queues the frame with list_add and falls through to register the
pending-reply entry; if delivery succeeds ( rc == 0 ) it frees the
pending-reply entry and returns without registering it; if delivery fails
it falls through and registers the entry.  The registered entry is keyed
by session->rpc_id after the post-increment. -/
def oncrpc_call_iob (s : oncrpc_session) (proc_name : Nat) (io_buf : List Nat)
    (cb : Nat) (window : Bool) (deliver_rc : Int) : Int × oncrpc_session :=
  let call_buf := oncrpc_call_frame s proc_name io_buf
  let s := { s with rpc_id := (s.rpc_id + 1) % 2 ^ 32 }
  if window = false then
    (0, { s with pending_call := call_buf :: s.pending_call,
                 pending_reply := (s.rpc_id, cb) :: s.pending_reply })
  else if deliver_rc = 0 then
    (0, s)
  else
    (deliver_rc, { s with pending_reply := (s.rpc_id, cb) :: s.pending_reply })

structure oncrpc_reply where
  rpc_id : Nat
  reply_state : Nat
  accept_state : Nat
  data : List Nat
deriving DecidableEq

def ENOTSUP : Int := 95

/-- The matching loop of oncrpc_deliver: list_for_each_entry_safe over
the pending replies, and on every entry whose rpc_id equals the reply
xid the callback variable is overwritten and the entry unlinked and
freed; the loop does not break, so the last match wins.  Returns the
callback found (if any) and the remaining list. -/
def oncrpc_deliver_loop (xid : Nat) :
    List (Nat × Nat) → Option Nat → Option Nat × List (Nat × Nat)
  | [], cb => (cb, [])
  | (x, c) :: rest, cb =>
    if x = xid then oncrpc_deliver_loop xid rest (some c)
    else
      let r := oncrpc_deliver_loop xid rest cb
      (r.1, (x, c) :: r.2)

structure oncrpc_deliver_result where
  rc : Int
  invoked : Option Nat
  reply : oncrpc_reply
  session : oncrpc_session

/-- oncrpc_deliver: consume the fragment header, xid and direction; refuse
anything that is not a reply with -ENOTSUP; read reply_state and
accept_state; then search the pending-reply list for the xid, removing
matches, and invoke the found callback (recorded in invoked; none when no
entry matched, in which case the message is dropped). -/
def oncrpc_deliver (s : oncrpc_session) (io_buf : List Nat) : oncrpc_deliver_result :=
  let g0 := oncrpc_iob_get_int io_buf
  let _fragment_size := GET_FRAME_SIZE g0.1
  let g1 := oncrpc_iob_get_int g0.2
  let g2 := oncrpc_iob_get_int g1.2
  if g2.1 ≠ ONCRPC_REPLY then
    { rc := -ENOTSUP, invoked := none,
      reply := { rpc_id := g1.1, reply_state := 0, accept_state := 0, data := g2.2 },
      session := s }
  else
    let g3 := oncrpc_iob_get_int g2.2
    let g4 := oncrpc_iob_get_int g3.2
    let lr := oncrpc_deliver_loop g1.1 s.pending_reply none
    { rc := 0, invoked := lr.1,
      reply := { rpc_id := g1.1, reply_state := g3.1, accept_state := g4.1, data := g4.2 },
      session := { s with pending_reply := lr.2 } }

/-- oncrpc_close_session: unlink every pending-reply entry (its free is
commented out in the source) and unlink and free every pending call, then
shut the transport down. -/
def oncrpc_close_session (s : oncrpc_session) : oncrpc_session :=
  { s with pending_call := [], pending_reply := [] }

/-- The drain loop of oncrpc_window_changed: walk the pending-call list
from its head; an entry whose xfer_deliver_iob result is nonzero is left
in place and the loop continues with the next entry; an entry delivered
successfully is unlinked and freed.  Returns the remaining queue and the
frames handed to the transport, in attempt order. -/
def oncrpc_window_changed_loop (send_rc : List Nat → Int) :
    List (List Nat) → List (List Nat) × List (List Nat)
  | [] => ([], [])
  | f :: rest =>
    if send_rc f ≠ 0 then
      let r := oncrpc_window_changed_loop send_rc rest
      (f :: r.1, r.2)
    else
      let r := oncrpc_window_changed_loop send_rc rest
      (r.1, f :: r.2)

/-- oncrpc_window_changed: nothing happens while the window is closed;
otherwise the pending-call queue is drained by the loop above. -/
def oncrpc_window_changed (s : oncrpc_session) (window : Bool)
    (send_rc : List Nat → Int) : oncrpc_session × List (List Nat) :=
  if window = false then (s, [])
  else
    let r := oncrpc_window_changed_loop send_rc s.pending_call
    ({ s with pending_call := r.1 }, r.2)

/-! ## Properties of the byte layer -/

lemma stringPadLoop_stop (k : Nat) (h : k % 4 = 0) : stringPadLoop k = ([], k + 1) := by
  rw [stringPadLoop]
  simp [h]

lemma stringPadLoop_go (k : Nat) (h : ¬ k % 4 = 0) :
    stringPadLoop k = (0 :: (stringPadLoop (k + 1)).1, (stringPadLoop (k + 1)).2) := by
  rw [stringPadLoop]
  simp [h]

lemma stringPadLoop_eq (k : Nat) :
    stringPadLoop k = (List.replicate ((4 - k % 4) % 4) 0, k + (4 - k % 4) % 4 + 1) := by
  have h4 : k % 4 = 0 ∨ k % 4 = 1 ∨ k % 4 = 2 ∨ k % 4 = 3 := by omega
  rcases h4 with h | h | h | h
  · rw [stringPadLoop_stop k h, h]
    simp
  · have a1 : ¬ k % 4 = 0 := by omega
    have a2 : ¬ (k + 1) % 4 = 0 := by omega
    have a3 : ¬ (k + 2) % 4 = 0 := by omega
    have a4 : (k + 3) % 4 = 0 := by omega
    rw [stringPadLoop_go k a1, stringPadLoop_go (k + 1) a2,
      stringPadLoop_go (k + 2) a3, stringPadLoop_stop (k + 3) a4, h]
    simp [List.replicate_succ]
  · have a1 : ¬ k % 4 = 0 := by omega
    have a2 : ¬ (k + 1) % 4 = 0 := by omega
    have a3 : (k + 2) % 4 = 0 := by omega
    rw [stringPadLoop_go k a1, stringPadLoop_go (k + 1) a2,
      stringPadLoop_stop (k + 2) a3, h]
    simp [List.replicate_succ]
  · have a1 : ¬ k % 4 = 0 := by omega
    have a2 : (k + 1) % 4 = 0 := by omega
    rw [stringPadLoop_go k a1, stringPadLoop_stop (k + 1) a2, h]
    simp [List.replicate_succ]

lemma oncrpc_iob_add_string_eq (io_buf val : List Nat) :
    oncrpc_iob_add_string io_buf val =
      (io_buf ++ be32 val.length ++ val ++ List.replicate ((4 - val.length % 4) % 4) 0,
       4 + val.length + (4 - val.length % 4) % 4) := by
  unfold oncrpc_iob_add_string oncrpc_iob_add_int
  rw [stringPadLoop_eq]
  simp only [Prod.mk.injEq]
  exact ⟨by simp [List.append_assoc], by omega⟩

lemma oncrpc_iob_add_int_length (io_buf : List Nat) (val : Nat) :
    ((oncrpc_iob_add_int io_buf val).1).length =
      io_buf.length + (oncrpc_iob_add_int io_buf val).2 := by
  simp [oncrpc_iob_add_int, be32]

lemma oncrpc_iob_add_string_length (io_buf val : List Nat) :
    ((oncrpc_iob_add_string io_buf val).1).length =
      io_buf.length + (oncrpc_iob_add_string io_buf val).2 := by
  rw [oncrpc_iob_add_string_eq]
  simp [be32]
  omega

lemma foldl_add_int_length (array : List Nat) :
    ∀ b : List Nat, (array.foldl (fun bb x => (oncrpc_iob_add_int bb x).1) b).length =
      b.length + 4 * array.length := by
  induction array with
  | nil => intro b; simp
  | cons a t ih =>
    intro b
    simp only [List.foldl_cons]
    rw [ih]
    simp [oncrpc_iob_add_int, be32]
    omega

lemma oncrpc_iob_add_intarray_length (io_buf : List Nat) (array : List Nat) :
    ((oncrpc_iob_add_intarray io_buf array).1).length =
      io_buf.length + (oncrpc_iob_add_intarray io_buf array).2 := by
  simp only [oncrpc_iob_add_intarray]
  rw [foldl_add_int_length]
  simp [oncrpc_iob_add_int, be32]
  omega

lemma oncrpc_iob_add_cred_length (io_buf : List Nat) (cred : oncrpc_cred) :
    ((oncrpc_iob_add_cred io_buf cred).1).length =
      io_buf.length + (oncrpc_iob_add_cred io_buf cred).2 := by
  simp only [oncrpc_iob_add_cred]
  split
  · simp [oncrpc_iob_add_int, be32]
  split
  · simp only [oncrpc_iob_add_intarray]
    rw [foldl_add_int_length]
    simp [oncrpc_iob_add_int, oncrpc_iob_add_string_eq, be32]
    omega
  · simp [oncrpc_iob_add_int, be32]

lemma addStep_inv (bf : List Nat × Nat) (g : List Nat → List Nat × Nat)
    (hg : ((g bf.1).1).length = bf.1.length + (g bf.1).2)
    (h : ∃ L, bf.1.length = 4 + L ∧ bf.2 = L % 2 ^ 32) :
    ∃ L, ((addStep bf g).1).length = 4 + L ∧ (addStep bf g).2 = L % 2 ^ 32 := by
  obtain ⟨L, h1, h2⟩ := h
  refine ⟨L + (g bf.1).2, ?_, ?_⟩
  · simp only [addStep]
    rw [hg, h1]
    omega
  · simp only [addStep]
    rw [h2, Nat.mod_add_mod]

lemma oncrpc_call_header_inv (s : oncrpc_session) (proc_name : Nat) :
    ∃ L, ((oncrpc_call_header s proc_name).1).length = 4 + L ∧
      (oncrpc_call_header s proc_name).2 = L % 2 ^ 32 := by
  unfold oncrpc_call_header
  refine addStep_inv _ _ (oncrpc_iob_add_cred_length _ _) ?_
  refine addStep_inv _ _ (oncrpc_iob_add_cred_length _ _) ?_
  refine addStep_inv _ _ (oncrpc_iob_add_int_length _ _) ?_
  refine addStep_inv _ _ (oncrpc_iob_add_int_length _ _) ?_
  refine addStep_inv _ _ (oncrpc_iob_add_int_length _ _) ?_
  refine addStep_inv _ _ (oncrpc_iob_add_int_length _ _) ?_
  refine addStep_inv _ _ (oncrpc_iob_add_int_length _ _) ?_
  refine addStep_inv _ _ (oncrpc_iob_add_int_length _ _) ?_
  exact ⟨0, rfl, by simp⟩

/-! ## Claim theorems for the byte layer -/

/-- C8: for every NUL-terminated string of length L, oncrpc_iob_add_string
appends exactly 4 + L + ((4 - L mod 4) mod 4) bytes to the buffer - a
4-byte length L, then the L string bytes, then zero bytes up to a 4-byte
boundary - and returns that same byte count. -/
theorem claim_C8 (io_buf val : List Nat) :
    (oncrpc_iob_add_string io_buf val).1 =
        io_buf ++ be32 val.length ++ val ++
          List.replicate ((4 - val.length % 4) % 4) 0 ∧
    (oncrpc_iob_add_string io_buf val).1.length =
        io_buf.length + (4 + val.length + (4 - val.length % 4) % 4) ∧
    (oncrpc_iob_add_string io_buf val).2 =
        4 + val.length + (4 - val.length % 4) % 4 := by
  rw [oncrpc_iob_add_string_eq]
  refine ⟨rfl, ?_, rfl⟩
  simp [be32]
  omega

/-- C4: for every call frame built by oncrpc_call_iob whose payload P (the
RPC call header, credential, verifier and procedure arguments) has length
at most 2^31 - 1, the record handed to the transport is the 4-byte
big-endian value (0x80000000 bitwise-or len P) followed exactly by the
bytes of P. -/
theorem claim_C4 (s : oncrpc_session) (proc_name : Nat) (io_buf : List Nat)
    (h : (oncrpc_call_payload s proc_name io_buf).length ≤ 2 ^ 31 - 1) :
    oncrpc_call_frame s proc_name io_buf =
      be32 (2 ^ 31 ||| (oncrpc_call_payload s proc_name io_buf).length) ++
        oncrpc_call_payload s proc_name io_buf := by
  obtain ⟨L, h1, h2⟩ := oncrpc_call_header_inv s proc_name
  have hd : ((oncrpc_call_header s proc_name).1.drop 4).length = L := by
    simp [h1]
  have hp : (oncrpc_call_payload s proc_name io_buf).length = L + io_buf.length := by
    simp [oncrpc_call_payload, hd]
  have hlt : L + io_buf.length < 2 ^ 32 := by
    rw [hp] at h
    have hb : (2 : Nat) ^ 31 - 1 < 2 ^ 32 := by norm_num
    omega
  have hmod : ((oncrpc_call_header s proc_name).2 + io_buf.length) % 2 ^ 32 =
      L + io_buf.length := by
    rw [h2, Nat.mod_add_mod]
    exact Nat.mod_eq_of_lt hlt
  unfold oncrpc_call_frame
  rw [hmod]
  simp only [SET_LAST_FRAME]
  rw [Nat.lor_comm, ← hp]
  simp [oncrpc_call_payload, List.append_assoc]

/-- The AUTH_NONE credential: flavor ONCRPC_AUTH_NONE, declared length 0
(struct oncrpc_cred oncrpc_auth_none in the source). -/
def authNoneCred : oncrpc_cred :=
  { flavor := 0, length := 0,
    sys := { stamp := 0, hostname := [], uid := 0, gid := 0, aux_gid := [] } }

/-- A freshly initialised session (oncrpc_init_session with AUTH_NONE
credential and verifier; rpc_id starts at 0 here). -/
def sessionW : oncrpc_session :=
  { rpc_id := 0, prog_name := 100003, prog_vers := 3,
    credential := authNoneCred, verifier := authNoneCred,
    pending_call := [], pending_reply := [] }

theorem claim_C4_witness :
    (oncrpc_call_payload sessionW 6 [1, 2, 3]).length ≤ 2 ^ 31 - 1 ∧
    oncrpc_call_frame sessionW 6 [1, 2, 3] =
      be32 (2 ^ 31 ||| (oncrpc_call_payload sessionW 6 [1, 2, 3]).length) ++
        oncrpc_call_payload sessionW 6 [1, 2, 3] :=
  ⟨by decide, claim_C4 sessionW 6 [1, 2, 3] (by decide)⟩

/-- C1 is a code bug: the frame encodes xid = session->rpc_id before the
post-increment, but the pending-reply entry (when one is registered at
all) is keyed by session->rpc_id after the increment, and on a successful
immediate transmission the entry is freed without being registered.  At
the failing input - a single call on a fresh session (frame xid 0),
accepted for transmission (return 0), whose reply with the same xid 0
then arrives - no callback is invoked: the pending-reply list is empty
and oncrpc_deliver finds no match. -/
theorem claim_C1_bug :
    (oncrpc_call_iob sessionW 6 [] 7 true 0).1 = 0 ∧
    ((oncrpc_call_frame sessionW 6 []).drop 4).take 4 = be32 0 ∧
    (oncrpc_call_iob sessionW 6 [] 7 true 0).2.pending_reply = [] ∧
    (oncrpc_deliver (oncrpc_call_iob sessionW 6 [] 7 true 0).2
        (be32 (2 ^ 31 + 24) ++ be32 0 ++ be32 1 ++ be32 0 ++ be32 0)).invoked = none := by
  refine ⟨rfl, by decide, rfl, ?_⟩
  decide

/-- C2 is a code bug: after a call is accepted with the transport window
open (success return 0), the pending-reply list holds no entry at all (the
entry is freed on the successful-send path); after a call is accepted with
the window closed, exactly one entry exists but it is keyed by rpc_id + 1
(here 1) while the frame encodes xid 0. -/
theorem claim_C2_bug :
    (oncrpc_call_iob sessionW 6 [] 7 true 0).1 = 0 ∧
    (oncrpc_call_iob sessionW 6 [] 7 true 0).2.pending_reply = [] ∧
    (oncrpc_call_iob sessionW 6 [] 7 false 0).1 = 0 ∧
    (oncrpc_call_iob sessionW 6 [] 7 false 0).2.pending_reply = [(1, 7)] ∧
    ((oncrpc_call_frame sessionW 6 []).drop 4).take 4 = be32 0 := by
  refine ⟨rfl, rfl, rfl, by decide, by decide⟩

/-- C3 counterexample: two calls queued while the window is closed (first
frame xid 0, second frame xid 1) are not transmitted in FIFO order when
the window opens with a transport that accepts everything: the transmit
order is the reverse of the call order, because oncrpc_call_iob prepends
with list_add and the drain walks from the head. -/
theorem claim_C3_cex :
    (oncrpc_window_changed
        (oncrpc_call_iob (oncrpc_call_iob sessionW 6 [] 1 false 0).2 6 [] 2 false 0).2
        true (fun _ => 0)).2 ≠
      [oncrpc_call_frame sessionW 6 [],
       oncrpc_call_frame { sessionW with rpc_id := 1 } 6 []] := by
  decide

lemma oncrpc_window_changed_loop_eq (send_rc : List Nat → Int) (q : List (List Nat)) :
    oncrpc_window_changed_loop send_rc q =
      (q.filter (fun f => decide (send_rc f ≠ 0)),
       q.filter (fun f => decide (send_rc f = 0))) := by
  induction q with
  | nil => rfl
  | cons f rest ih =>
    by_cases hs : send_rc f = 0
    · simp [oncrpc_window_changed_loop, hs, ih]
    · simp [oncrpc_window_changed_loop, hs, ih]

/-- C3 corrected: when the window opens, the drain walks the pending-call
list from its head, which is the most recently queued frame (LIFO),
because oncrpc_call_iob prepends new frames; every queued frame is
attempted in that order, the frames the transport accepts are transmitted
and removed, the frames it rejects are left queued and the drain continues
past them instead of stopping; draining only ends at the end of the list
(or immediately when the window is closed). -/
theorem claim_C3_amended :
    (∀ (s : oncrpc_session) (send_rc : List Nat → Int),
        oncrpc_window_changed s true send_rc =
          ({ s with
              pending_call := s.pending_call.filter (fun f => decide (send_rc f ≠ 0)) },
           s.pending_call.filter (fun f => decide (send_rc f = 0)))) ∧
    (∀ (s : oncrpc_session) (send_rc : List Nat → Int),
        oncrpc_window_changed s false send_rc = (s, [])) ∧
    (∀ (s : oncrpc_session) (proc_name : Nat) (io_buf : List Nat) (cb : Nat),
        (oncrpc_call_iob s proc_name io_buf cb false 0).2.pending_call =
          oncrpc_call_frame s proc_name io_buf :: s.pending_call) := by
  refine ⟨?_, ?_, ?_⟩
  · intro s send_rc
    simp [oncrpc_window_changed, oncrpc_window_changed_loop_eq]
  · intro s send_rc
    rfl
  · intro s proc_name io_buf cb
    rfl

/-! ## NFS-open driver (nfs_open.c, state-machine version) -/

def EPROTO : Int := 71
def ECONNRESET : Int := 104
def NFS_RSIZE : Nat := 1300

/-- Environment profile of one delivery on the NFS session.  The decoders
nfs_get_lookup_reply and nfs_get_read_reply live in files that are not
under src/; modelled from the spec (section 4.3): their status result and
decoded fields are supplied by the event.  read_filesize is the size taken
from the optional post-op attributes and is absent (none) when the
attributes flag is 0 (spec sections 4.3 and 9, note 3).  deliver_rc is the
downstream response to xfer_deliver_raw. -/
structure nfs_reply_ev where
  accept_state : Nat
  lookup_rc : Int
  lookup_fh : List Nat
  read_rc : Int
  read_filesize : Option Nat
  read_count : Nat
  read_eof : Bool
  read_data : List Nat
  deliver_rc : Int
deriving DecidableEq

/-- Events delivered to the driver by its environment: replies on the
three sessions (with the fields their decoders would produce), window
notifications on the three session interfaces, and a close on the
downstream data-transfer interface. -/
inductive nfs_ev where
  | pm_reply (accept_state : Nat) (rc : Int) (port : Nat)
  | mount_reply (accept_state : Nat) (rc : Int) (fh : List Nat)
  | nfs_reply (r : nfs_reply_ev)
  | pm_window (b : Bool)
  | mount_window (b : Bool)
  | nfs_window (b : Bool)
  | xfer_close (rc : Int)
deriving DecidableEq

/-- Observable actions of the driver: RPC calls issued, downstream
data-transfer operations, connections opened and interface shutdowns. -/
inductive nfs_out where
  | getport_mount
  | getport_nfs
  | connect_mount (port : Nat)
  | connect_nfs (port : Nat)
  | mnt (dir : List Nat)
  | umnt (dir : List Nat)
  | lookup (fh name : List Nat)
  | read (fh : List Nat) (off count : Nat)
  | seek (pos : Nat)
  | deliver (data : List Nat)
  | shutdown_xfer (rc : Int)
  | shutdown_pm (rc : Int)
  | shutdown_mount (rc : Int)
  | shutdown_nfs (rc : Int)
deriving DecidableEq

/-- struct nfs_request.  The three state enums are Nat because the source
steps them with ++ and --: pm states NONE 0, MOUNTPORT 1, NFSPORT 2,
CLOSED 3; mount states NONE 0, MNT 1, UMNT 2, CLOSED 3; nfs states NONE 0,
LOOKUP 1, LOOKUP_SENT 2, READ 3, READ_SENT 4, CLOSED 5.  The three window
booleans model xfer_window on the three session interfaces. -/
structure nfs_request where
  pm_state : Nat
  mount_state : Nat
  nfs_state : Nat
  file_offset : Nat
  current_fh : List Nat
  filename : List Nat
  mountpoint : List Nat
  pm_w : Bool
  mount_w : Bool
  nfs_w : Bool
deriving DecidableEq

/-- nfs_done: if rc is 0 but the NFS state machine has not reached
NFS_CLOSED, the status is coerced to -ECONNRESET; then all four
interfaces are shut down with the resulting status. -/
def nfs_done (s : nfs_request) (rc : Int) : nfs_request × List nfs_out :=
  let rc2 := if rc = 0 ∧ s.nfs_state ≠ 5 then -ECONNRESET else rc
  (s, [nfs_out.shutdown_xfer rc2, nfs_out.shutdown_pm rc2,
       nfs_out.shutdown_mount rc2, nfs_out.shutdown_nfs rc2])

/-- nfs_pm_step: returns early when the portmap window is closed;
in NFS_PORTMAP_NONE issues GETPORT for mount and advances; in
NFS_PORTMAP_NFSPORT issues GETPORT for nfs (no state change).  Call
submission is modelled as accepted (the portmap_getport helper is not
under src/). -/
def nfs_pm_step (s : nfs_request) : nfs_request × List nfs_out :=
  if s.pm_w = false then (s, [])
  else if s.pm_state = 0 then ({ s with pm_state := 1 }, [nfs_out.getport_mount])
  else if s.pm_state = 2 then (s, [nfs_out.getport_nfs])
  else (s, [])

/-- nfs_mount_step: returns early when the mount window is closed; in
NFS_MOUNT_NONE issues MNT and advances; in NFS_MOUNT_UMNT issues UMNT
(no state change). -/
def nfs_mount_step (s : nfs_request) : nfs_request × List nfs_out :=
  if s.mount_w = false then (s, [])
  else if s.mount_state = 0 then ({ s with mount_state := 1 }, [nfs_out.mnt s.mountpoint])
  else if s.mount_state = 2 then (s, [nfs_out.umnt s.mountpoint])
  else (s, [])

/-- nfs_step: returns early when the nfs window is closed; in NFS_LOOKUP
issues LOOKUP and advances; in NFS_READ issues READ at the current offset
and advances. -/
def nfs_step (s : nfs_request) : nfs_request × List nfs_out :=
  if s.nfs_w = false then (s, [])
  else if s.nfs_state = 1 then
    ({ s with nfs_state := 2 }, [nfs_out.lookup s.current_fh s.filename])
  else if s.nfs_state = 3 then
    ({ s with nfs_state := 4 }, [nfs_out.read s.current_fh s.file_offset NFS_RSIZE])
  else (s, [])

/-- nfs_pm_deliver: a nonzero accept_state is -EPROTO; in
NFS_PORTMAP_MOUNTPORT a good GETPORT reply connects the mount transport
and advances into NFS_PORTMAP_NFSPORT, then runs nfs_pm_step; in
NFS_PORTMAP_NFSPORT it connects the nfs transport, shuts the portmap
interface down with 0 and advances; anything else is -EPROTO. -/
def nfs_pm_deliver (s : nfs_request) (accept_state : Nat) (rc : Int) (port : Nat) :
    nfs_request × List nfs_out :=
  if accept_state ≠ 0 then nfs_done s (-EPROTO)
  else if s.pm_state = 1 then
    if rc ≠ 0 then nfs_done s rc
    else
      let s2 := { s with pm_state := 2 }
      let r := nfs_pm_step s2
      (r.1, nfs_out.connect_mount port :: r.2)
  else if s.pm_state = 2 then
    if rc ≠ 0 then nfs_done s rc
    else ({ s with pm_state := 3 }, [nfs_out.connect_nfs port, nfs_out.shutdown_pm 0])
  else nfs_done s (-EPROTO)

/-- nfs_mount_deliver: a nonzero accept_state is -EPROTO; in
NFS_MOUNT_MNT a good MNT reply stores the root file handle, moves the NFS
machine to NFS_LOOKUP and runs nfs_step; in NFS_MOUNT_UMNT the UMNT reply
completes the request with nfs_done 0; anything else is -EPROTO. -/
def nfs_mount_deliver (s : nfs_request) (accept_state : Nat) (rc : Int) (fh : List Nat) :
    nfs_request × List nfs_out :=
  if accept_state ≠ 0 then nfs_done s (-EPROTO)
  else if s.mount_state = 1 then
    if rc ≠ 0 then nfs_done s rc
    else nfs_step { s with current_fh := fh, nfs_state := 1 }
  else if s.mount_state = 2 then nfs_done s 0
  else nfs_done s (-EPROTO)

/-- nfs_deliver: a nonzero accept_state is -EPROTO.  In NFS_LOOKUP_SENT a
good LOOKUP reply stores the file handle, advances to NFS_READ and runs
nfs_step.  In NFS_READ_SENT a good READ reply first (when file_offset is
still 0) seeks the downstream to the file size from the post-op
attributes and back to 0 - the size signal being omitted when the
attributes are absent - then advances file_offset by the reported count
and delivers the data; a delivery failure aborts; otherwise, if eof is
not set the machine steps back to NFS_READ and runs nfs_step, and if eof
is set the nfs interface is shut down with 0, the machine advances to
NFS_CLOSED, the mount machine advances to NFS_MOUNT_UMNT and
nfs_mount_step runs.  Anything else is -EPROTO.

The size signalling of the READ branch is split out as nfs_read_seeks:
when file_offset is still 0, seek to the file size from the post-op
attributes and back to 0, the size signal being omitted when the
attributes (and hence the size) are absent. -/
def nfs_read_seeks (s : nfs_request) (r : nfs_reply_ev) : List nfs_out :=
  if s.file_offset = 0 then
    match r.read_filesize with
    | some sz => [nfs_out.seek sz, nfs_out.seek 0]
    | none => []
  else []

def nfs_deliver (s : nfs_request) (r : nfs_reply_ev) : nfs_request × List nfs_out :=
  if r.accept_state ≠ 0 then nfs_done s (-EPROTO)
  else if s.nfs_state = 2 then
    if r.lookup_rc ≠ 0 then nfs_done s r.lookup_rc
    else nfs_step { s with current_fh := r.lookup_fh, nfs_state := 3 }
  else if s.nfs_state = 4 then
    if r.read_rc ≠ 0 then nfs_done s r.read_rc
    else
      let seeks : List nfs_out := nfs_read_seeks s r
      let s2 := { s with file_offset := s.file_offset + r.read_count }
      if r.deliver_rc ≠ 0 then
        let d := nfs_done s2 r.deliver_rc
        (d.1, seeks ++ nfs_out.deliver r.read_data :: d.2)
      else if r.read_eof = false then
        let t := nfs_step { s2 with nfs_state := s2.nfs_state - 1 }
        (t.1, seeks ++ nfs_out.deliver r.read_data :: t.2)
      else
        let t := nfs_mount_step
          { s2 with nfs_state := s2.nfs_state + 1, mount_state := s2.mount_state + 1 }
        (t.1, seeks ++ nfs_out.deliver r.read_data :: nfs_out.shutdown_nfs 0 :: t.2)
  else nfs_done s (-EPROTO)

/-- Event dispatch following the four interface-operation tables:
xfer_deliver goes to the deliver functions, xfer_window_changed records
the new window state and runs the step functions (which check the window
themselves), and intf_close on the data-transfer interface runs
nfs_done with the close status. -/
def nfs_handle (s : nfs_request) (e : nfs_ev) : nfs_request × List nfs_out :=
  match e with
  | nfs_ev.pm_reply a rc port => nfs_pm_deliver s a rc port
  | nfs_ev.mount_reply a rc fh => nfs_mount_deliver s a rc fh
  | nfs_ev.nfs_reply r => nfs_deliver s r
  | nfs_ev.pm_window b => nfs_pm_step { s with pm_w := b }
  | nfs_ev.mount_window b => nfs_mount_step { s with mount_w := b }
  | nfs_ev.nfs_window b => nfs_step { s with nfs_w := b }
  | nfs_ev.xfer_close rc => nfs_done s rc

/-- Run the driver over a list of environment events, collecting the
emitted actions in order. -/
def nfs_run (s : nfs_request) : List nfs_ev → nfs_request × List nfs_out
  | [] => (s, [])
  | e :: evs =>
    let r := nfs_handle s e
    let t := nfs_run r.1 evs
    (t.1, r.2 ++ t.2)

/-- The driver state right after nfs_open: all three machines in their
NONE state, offset 0, no file handle, windows closed until the transports
report them open. -/
def nfs_init (mountpoint filename : List Nat) : nfs_request :=
  { pm_state := 0, mount_state := 0, nfs_state := 0, file_offset := 0,
    current_fh := [], filename := filename, mountpoint := mountpoint,
    pm_w := false, mount_w := false, nfs_w := false }

/-! ## Claim theorems for the driver (C5, C7, C10) -/

lemma nfs_deliver_first_read (s : nfs_request) (r : nfs_reply_ev)
    (h1 : s.nfs_state = 4) (h2 : s.file_offset = 0)
    (h3 : r.accept_state = 0) (h4 : r.read_rc = 0) (sz : Nat)
    (h5 : r.read_filesize = some sz) :
    ∃ rest, (nfs_deliver s r).2 =
      nfs_out.seek sz :: nfs_out.seek 0 :: nfs_out.deliver r.read_data :: rest := by
  by_cases hd : r.deliver_rc = 0
  · by_cases he : r.read_eof = false
    · exact ⟨_, by simp [nfs_deliver, nfs_read_seeks, h1, h2, h3, h4, h5, hd, he]; rfl⟩
    · exact ⟨_, by simp [nfs_deliver, nfs_read_seeks, h1, h2, h3, h4, h5, hd, he]; rfl⟩
  · exact ⟨_, by simp [nfs_deliver, nfs_read_seeks, h1, h2, h3, h4, h5, hd]; rfl⟩

lemma nfs_deliver_first_read_nosize (s : nfs_request) (r : nfs_reply_ev)
    (h1 : s.nfs_state = 4) (h2 : s.file_offset = 0)
    (h3 : r.accept_state = 0) (h4 : r.read_rc = 0)
    (h5 : r.read_filesize = none) :
    ∃ rest, (nfs_deliver s r).2 = nfs_out.deliver r.read_data :: rest := by
  by_cases hd : r.deliver_rc = 0
  · by_cases he : r.read_eof = false
    · exact ⟨_, by simp [nfs_deliver, nfs_read_seeks, h1, h2, h3, h4, h5, hd, he]; rfl⟩
    · exact ⟨_, by simp [nfs_deliver, nfs_read_seeks, h1, h2, h3, h4, h5, hd, he]; rfl⟩
  · exact ⟨_, by simp [nfs_deliver, nfs_read_seeks, h1, h2, h3, h4, h5, hd]; rfl⟩

/-- C5: on a READ reply processed while file_offset is 0 (which holds for
the first READ reply of a fetch), the driver seeks the downstream sink to
the full file size and then back to 0 before delivering any data; when
the post-op attributes are absent from the reply the size signal is
omitted and delivery starts immediately. -/
theorem claim_C5 (s : nfs_request) (r : nfs_reply_ev)
    (h1 : s.nfs_state = 4) (h2 : s.file_offset = 0)
    (h3 : r.accept_state = 0) (h4 : r.read_rc = 0) :
    (∀ sz, r.read_filesize = some sz →
      ∃ rest, (nfs_deliver s r).2 =
        nfs_out.seek sz :: nfs_out.seek 0 :: nfs_out.deliver r.read_data :: rest) ∧
    (r.read_filesize = none →
      ∃ rest, (nfs_deliver s r).2 = nfs_out.deliver r.read_data :: rest) :=
  ⟨fun sz h5 => nfs_deliver_first_read s r h1 h2 h3 h4 sz h5,
   fun h5 => nfs_deliver_first_read_nosize s r h1 h2 h3 h4 h5⟩

/-- A driver state in NFS_READ_SENT awaiting its first READ reply. -/
def c5state : nfs_request :=
  { nfs_init [47, 101] [102] with nfs_state := 4, nfs_w := true }

/-- A successful final READ reply with post-op attributes present. -/
def c5reply : nfs_reply_ev :=
  { accept_state := 0, lookup_rc := 0, lookup_fh := [],
    read_rc := 0, read_filesize := some 5, read_count := 5, read_eof := true,
    read_data := [104, 105], deliver_rc := 0 }

theorem claim_C5_witness :
    c5state.nfs_state = 4 ∧ c5state.file_offset = 0 ∧
    c5reply.accept_state = 0 ∧ c5reply.read_rc = 0 ∧
    c5reply.read_filesize = some 5 ∧
    (∃ rest, (nfs_deliver c5state c5reply).2 =
      nfs_out.seek 5 :: nfs_out.seek 0 :: nfs_out.deliver c5reply.read_data :: rest) :=
  ⟨rfl, rfl, rfl, rfl, rfl, (claim_C5 c5state c5reply rfl rfl rfl rfl).1 5 rfl⟩

/-- C7: a close of the downstream data sink before the NFS machine has
reached NFS_CLOSED makes nfs_done shut all four interfaces down with a
single nonzero status - the close status itself when nonzero, and
-ECONNRESET in place of a zero status - so completion status 0 is
impossible before the closed state. -/
theorem claim_C7 (s : nfs_request) (rc : Int) (h : s.nfs_state ≠ 5) :
    ∃ rc2, rc2 ≠ 0 ∧
      (nfs_handle s (nfs_ev.xfer_close rc)).2 =
        [nfs_out.shutdown_xfer rc2, nfs_out.shutdown_pm rc2,
         nfs_out.shutdown_mount rc2, nfs_out.shutdown_nfs rc2] ∧
      (rc = 0 → rc2 = -ECONNRESET) := by
  by_cases hrc : rc = 0
  · refine ⟨-ECONNRESET, by norm_num [ECONNRESET], ?_, fun _ => rfl⟩
    simp [nfs_handle, nfs_done, hrc, h]
  · refine ⟨rc, hrc, ?_, fun c => absurd c hrc⟩
    simp [nfs_handle, nfs_done, hrc]

theorem claim_C7_witness :
    (nfs_init [] []).nfs_state ≠ 5 ∧
    ∃ rc2, rc2 ≠ 0 ∧
      (nfs_handle (nfs_init [] []) (nfs_ev.xfer_close 0)).2 =
        [nfs_out.shutdown_xfer rc2, nfs_out.shutdown_pm rc2,
         nfs_out.shutdown_mount rc2, nfs_out.shutdown_nfs rc2] ∧
      ((0 : Int) = 0 → rc2 = -ECONNRESET) :=
  ⟨by decide, claim_C7 (nfs_init [] []) 0 (by decide)⟩

/-- C10: a successful READ reply with count 0 and eof false, processed at
file_offset 0, leaves file_offset at 0 and re-arms NFS_READ_SENT, so the
next READ reply again satisfies the first-reply condition and the driver
re-emits seek(filesize) and seek(0) before delivering: the size signal is
guarded by file_offset = 0 rather than a once-only flag and can be sent
more than once per fetch. -/
theorem claim_C10 (s : nfs_request) (r1 r2 : nfs_reply_ev) (sz1 sz2 : Nat)
    (h1 : s.nfs_state = 4) (h2 : s.file_offset = 0) (hw : s.nfs_w = true)
    (ha1 : r1.accept_state = 0) (hr1 : r1.read_rc = 0) (hd1 : r1.deliver_rc = 0)
    (hc1 : r1.read_count = 0) (he1 : r1.read_eof = false)
    (hs1 : r1.read_filesize = some sz1)
    (ha2 : r2.accept_state = 0) (hr2 : r2.read_rc = 0)
    (hs2 : r2.read_filesize = some sz2) :
    (nfs_deliver s r1).1.file_offset = 0 ∧
    (nfs_deliver s r1).1.nfs_state = 4 ∧
    (nfs_deliver s r1).2 =
      [nfs_out.seek sz1, nfs_out.seek 0, nfs_out.deliver r1.read_data,
       nfs_out.read s.current_fh 0 NFS_RSIZE] ∧
    (∃ rest, (nfs_deliver (nfs_deliver s r1).1 r2).2 =
      nfs_out.seek sz2 :: nfs_out.seek 0 :: nfs_out.deliver r2.read_data :: rest) := by
  have k1 : (nfs_deliver s r1).1.file_offset = 0 := by
    simp [nfs_deliver, nfs_read_seeks, nfs_step, h1, h2, hw, ha1, hr1, hd1, hc1, he1, hs1]
  have k2 : (nfs_deliver s r1).1.nfs_state = 4 := by
    simp [nfs_deliver, nfs_read_seeks, nfs_step, h1, h2, hw, ha1, hr1, hd1, hc1, he1, hs1]
  refine ⟨k1, k2, ?_, nfs_deliver_first_read _ r2 k2 k1 ha2 hr2 sz2 hs2⟩
  simp [nfs_deliver, nfs_read_seeks, nfs_step, h1, h2, hw, ha1, hr1, hd1, hc1, he1, hs1]

/-- A successful READ reply carrying attributes but no data: count 0 and
eof false. -/
def c10reply : nfs_reply_ev :=
  { accept_state := 0, lookup_rc := 0, lookup_fh := [],
    read_rc := 0, read_filesize := some 7, read_count := 0, read_eof := false,
    read_data := [], deliver_rc := 0 }

theorem claim_C10_witness :
    c5state.nfs_state = 4 ∧ c5state.file_offset = 0 ∧ c5state.nfs_w = true ∧
    c10reply.read_count = 0 ∧ c10reply.read_eof = false ∧
    (nfs_deliver c5state c10reply).1.file_offset = 0 ∧
    (nfs_deliver c5state c10reply).1.nfs_state = 4 ∧
    (nfs_deliver c5state c10reply).2 =
      [nfs_out.seek 7, nfs_out.seek 0, nfs_out.deliver c10reply.read_data,
       nfs_out.read c5state.current_fh 0 NFS_RSIZE] ∧
    (∃ rest, (nfs_deliver (nfs_deliver c5state c10reply).1 c5reply).2 =
      nfs_out.seek 5 :: nfs_out.seek 0 :: nfs_out.deliver c5reply.read_data :: rest) := by
  have h := claim_C10 c5state c10reply c5reply 7 5 rfl rfl rfl rfl rfl rfl rfl rfl rfl
    rfl rfl rfl
  exact ⟨rfl, rfl, rfl, rfl, rfl, h.1, h.2.1, h.2.2.1, h.2.2.2⟩

/-! ## C6: UMNT is issued before DONE -/

/-- A UMNT call and the eof shutdown of the nfs interface have already
been emitted. -/
def umnt_seen (out : List nfs_out) : Prop :=
  (∃ d, nfs_out.umnt d ∈ out) ∧ nfs_out.shutdown_nfs 0 ∈ out

lemma umnt_seen_mono (out ext : List nfs_out) (h : umnt_seen out) :
    umnt_seen (out ++ ext) := by
  obtain ⟨⟨d, hd⟩, hs⟩ := h
  exact ⟨⟨d, List.mem_append_left _ hd⟩, List.mem_append_left _ hs⟩

/-- Every completion with status 0 in the trace is preceded by a UMNT
call and by the eof shutdown of the nfs interface. -/
def trace_ok (out : List nfs_out) : Prop :=
  ∀ pre suf, out = pre ++ nfs_out.shutdown_xfer 0 :: suf → umnt_seen pre

lemma append_split {α : Type} (a b pre suf : List α) (x : α)
    (h : a ++ b = pre ++ x :: suf) :
    (∃ t, a = pre ++ x :: t ∧ suf = t ++ b) ∨
    (∃ u, pre = a ++ u ∧ b = u ++ x :: suf) := by
  induction a generalizing pre with
  | nil => exact Or.inr ⟨pre, by simp, by simpa using h⟩
  | cons y a ih =>
    cases pre with
    | nil =>
      simp only [List.nil_append, List.cons_append, List.cons.injEq] at h
      exact Or.inl ⟨a, by simp [h.1], h.2.symm⟩
    | cons z pre =>
      simp only [List.cons_append, List.cons.injEq] at h
      rcases ih pre h.2 with ⟨t, h1, h2⟩ | ⟨u, h1, h2⟩
      · exact Or.inl ⟨t, by simp [h.1, h1], h2⟩
      · exact Or.inr ⟨u, by simp [h.1, h1], h2⟩

lemma trace_ok_append (out ext : List nfs_out) (h : trace_ok out)
    (hext : nfs_out.shutdown_xfer 0 ∈ ext → umnt_seen out) :
    trace_ok (out ++ ext) := by
  intro pre suf heq
  rcases append_split out ext pre suf _ heq with ⟨t, h1, _⟩ | ⟨u, h1, h2⟩
  · exact h pre t h1
  · have hm : nfs_out.shutdown_xfer 0 ∈ ext := by
      rw [h2]
      exact List.mem_append_right _ (List.mem_cons_self _ _)
    rw [h1]
    exact umnt_seen_mono _ _ (hext hm)

/-- The inductive invariant: the mount window stays open; while the NFS
machine is between LOOKUP and READ_SENT the mount machine sits in
NFS_MOUNT_MNT; once the NFS machine is closed, or the mount machine is in
NFS_MOUNT_UMNT, the UMNT call and the eof shutdown are already in the
trace; and the trace so far satisfies trace_ok. -/
def c6inv (s : nfs_request) (out : List nfs_out) : Prop :=
  s.mount_w = true ∧
  (1 ≤ s.nfs_state ∧ s.nfs_state ≤ 4 → s.mount_state = 1) ∧
  (s.nfs_state = 5 → umnt_seen out) ∧
  (s.mount_state = 2 → umnt_seen out) ∧
  trace_ok out

lemma c6inv_extend (s : nfs_request) (out ext : List nfs_out) (h : c6inv s out)
    (hx : nfs_out.shutdown_xfer 0 ∈ ext → umnt_seen out) :
    c6inv s (out ++ ext) := by
  obtain ⟨h1, h2, h3, h4, h5⟩ := h
  exact ⟨h1, h2, fun a => umnt_seen_mono _ _ (h3 a),
    fun a => umnt_seen_mono _ _ (h4 a), trace_ok_append _ _ h5 hx⟩

lemma c6_done (s : nfs_request) (out : List nfs_out) (rc : Int) (h : c6inv s out) :
    c6inv (nfs_done s rc).1 (out ++ (nfs_done s rc).2) := by
  apply c6inv_extend s out _ h
  intro hm
  simp only [nfs_done, List.mem_cons, List.not_mem_nil, or_false] at hm
  by_cases hc : rc = 0 ∧ ¬ s.nfs_state = 5
  · simp only [if_pos hc] at hm
    simp [ECONNRESET] at hm
  · simp only [if_neg hc] at hm
    simp at hm
    have h5 : s.nfs_state = 5 := by
      by_contra h5x
      exact hc ⟨hm.symm, h5x⟩
    exact h.2.2.1 h5

lemma nfs_read_seeks_no_done (s : nfs_request) (r : nfs_reply_ev) :
    nfs_out.shutdown_xfer 0 ∉ nfs_read_seeks s r := by
  unfold nfs_read_seeks
  by_cases ho : s.file_offset = 0
  · rw [if_pos ho]
    cases r.read_filesize <;> simp
  · rw [if_neg ho]
    simp

lemma c6_pm_step (s : nfs_request) (out : List nfs_out) (h : c6inv s out) :
    c6inv (nfs_pm_step s).1 (out ++ (nfs_pm_step s).2) := by
  by_cases hw : s.pm_w = false
  · simp only [nfs_pm_step, if_pos hw]
    simpa using h
  · by_cases h0 : s.pm_state = 0
    · simp only [nfs_pm_step, if_neg hw, if_pos h0]
      exact ⟨h.1, h.2.1, fun a => umnt_seen_mono _ _ (h.2.2.1 a),
        fun a => umnt_seen_mono _ _ (h.2.2.2.1 a),
        trace_ok_append _ _ h.2.2.2.2 (fun hm => by simp at hm)⟩
    · by_cases h2 : s.pm_state = 2
      · simp only [nfs_pm_step, if_neg hw, if_neg h0, if_pos h2]
        exact ⟨h.1, h.2.1, fun a => umnt_seen_mono _ _ (h.2.2.1 a),
          fun a => umnt_seen_mono _ _ (h.2.2.2.1 a),
          trace_ok_append _ _ h.2.2.2.2 (fun hm => by simp at hm)⟩
      · simp only [nfs_pm_step, if_neg hw, if_neg h0, if_neg h2]
        simpa using h

lemma c6_mount_step (s : nfs_request) (out : List nfs_out) (h : c6inv s out) :
    c6inv (nfs_mount_step s).1 (out ++ (nfs_mount_step s).2) := by
  by_cases hw : s.mount_w = false
  · simp only [nfs_mount_step, if_pos hw]
    simpa using h
  · by_cases h0 : s.mount_state = 0
    · simp only [nfs_mount_step, if_neg hw, if_pos h0]
      refine ⟨h.1, fun _ => rfl, fun a => umnt_seen_mono _ _ (h.2.2.1 a), ?_,
        trace_ok_append _ _ h.2.2.2.2 (fun hm => by simp at hm)⟩
      intro a
      simp at a
    · by_cases h2 : s.mount_state = 2
      · simp only [nfs_mount_step, if_neg hw, if_neg h0, if_pos h2]
        exact ⟨h.1, h.2.1, fun a => umnt_seen_mono _ _ (h.2.2.1 a),
          fun a => umnt_seen_mono _ _ (h.2.2.2.1 a),
          trace_ok_append _ _ h.2.2.2.2 (fun hm => by simp at hm)⟩
      · simp only [nfs_mount_step, if_neg hw, if_neg h0, if_neg h2]
        simpa using h

lemma c6_step (s : nfs_request) (out : List nfs_out) (h : c6inv s out) :
    c6inv (nfs_step s).1 (out ++ (nfs_step s).2) := by
  by_cases hw : s.nfs_w = false
  · simp only [nfs_step, if_pos hw]
    simpa using h
  · by_cases h1 : s.nfs_state = 1
    · simp only [nfs_step, if_neg hw, if_pos h1]
      refine ⟨h.1, fun _ => h.2.1 ⟨by omega, by omega⟩, ?_,
        fun a => umnt_seen_mono _ _ (h.2.2.2.1 a),
        trace_ok_append _ _ h.2.2.2.2 (fun hm => by simp at hm)⟩
      intro a
      simp at a
    · by_cases h3 : s.nfs_state = 3
      · simp only [nfs_step, if_neg hw, if_neg h1, if_pos h3]
        refine ⟨h.1, fun _ => h.2.1 ⟨by omega, by omega⟩, ?_,
          fun a => umnt_seen_mono _ _ (h.2.2.2.1 a),
          trace_ok_append _ _ h.2.2.2.2 (fun hm => by simp at hm)⟩
        intro a
        simp at a
      · simp only [nfs_step, if_neg hw, if_neg h1, if_neg h3]
        simpa using h
lemma list_regroup1 {α : Type} (a c : List α) (x : α) :
    a ++ x :: c = (a ++ [x]) ++ c := by
  simp

lemma list_regroup2 {α : Type} (a b c : List α) (x : α) :
    a ++ (b ++ x :: c) = (a ++ (b ++ [x])) ++ c := by
  simp

/-- The file_offset field does not occur in the invariant. -/
lemma c6inv_reoffset (s : nfs_request) (out : List nfs_out) (v : Nat) (h : c6inv s out) :
    c6inv { s with file_offset := v } out :=
  h

lemma nfs_mount_step_umnt (s : nfs_request) (hw : s.mount_w = true)
    (h2 : s.mount_state = 2) :
    nfs_mount_step s = (s, [nfs_out.umnt s.mountpoint]) := by
  simp [nfs_mount_step, hw, h2]

lemma c6_handle (s : nfs_request) (out : List nfs_out) (e : nfs_ev)
    (he : ∀ b, e = nfs_ev.mount_window b → b = true)
    (h : c6inv s out) :
    c6inv (nfs_handle s e).1 (out ++ (nfs_handle s e).2) := by
  cases e with
  | pm_reply a rc port =>
    simp only [nfs_handle]
    by_cases ha : a ≠ 0
    · simp only [nfs_pm_deliver, if_pos ha]
      exact c6_done s out _ h
    · by_cases h1 : s.pm_state = 1
      · by_cases hrc : rc ≠ 0
        · simp only [nfs_pm_deliver, if_neg ha, if_pos h1, if_pos hrc]
          exact c6_done s out _ h
        · simp only [nfs_pm_deliver, if_neg ha, if_pos h1, if_neg hrc]
          rw [list_regroup1]
          apply c6_pm_step
          exact c6inv_extend _ _ _ h (fun hm => by simp at hm)
      · by_cases h2 : s.pm_state = 2
        · simp only [nfs_pm_deliver, if_neg ha, if_neg h1, if_pos h2]
          by_cases hrc : rc ≠ 0
          · simp only [if_pos hrc]
            exact c6_done s out _ h
          · simp only [if_neg hrc]
            exact c6inv_extend _ _ _ h (fun hm => by simp at hm)
        · simp only [nfs_pm_deliver, if_neg ha, if_neg h1, if_neg h2]
          exact c6_done s out _ h
  | mount_reply a rc fh =>
    simp only [nfs_handle]
    by_cases ha : a ≠ 0
    · simp only [nfs_mount_deliver, if_pos ha]
      exact c6_done s out _ h
    · by_cases h1 : s.mount_state = 1
      · by_cases hrc : rc ≠ 0
        · simp only [nfs_mount_deliver, if_neg ha, if_pos h1, if_pos hrc]
          exact c6_done s out _ h
        · simp only [nfs_mount_deliver, if_neg ha, if_pos h1, if_neg hrc]
          apply c6_step
          refine ⟨h.1, fun _ => h1, ?_, h.2.2.2.1, h.2.2.2.2⟩
          intro a2
          have a3 : (1 : Nat) = 5 := a2
          omega
      · by_cases h2 : s.mount_state = 2
        · simp only [nfs_mount_deliver, if_neg ha, if_neg h1, if_pos h2]
          exact c6_done s out _ h
        · simp only [nfs_mount_deliver, if_neg ha, if_neg h1, if_neg h2]
          exact c6_done s out _ h
  | nfs_reply r =>
    simp only [nfs_handle]
    by_cases ha : r.accept_state ≠ 0
    · simp only [nfs_deliver, if_pos ha]
      exact c6_done s out _ h
    · by_cases h2s : s.nfs_state = 2
      · by_cases hlrc : r.lookup_rc ≠ 0
        · simp only [nfs_deliver, if_neg ha, if_pos h2s, if_pos hlrc]
          exact c6_done s out _ h
        · simp only [nfs_deliver, if_neg ha, if_pos h2s, if_neg hlrc]
          apply c6_step
          refine ⟨h.1, fun _ => h.2.1 ⟨by omega, by omega⟩, ?_, h.2.2.2.1, h.2.2.2.2⟩
          intro a2
          have a3 : (3 : Nat) = 5 := a2
          omega
      · by_cases h4s : s.nfs_state = 4
        · by_cases hrrc : r.read_rc ≠ 0
          · simp only [nfs_deliver, if_neg ha, if_neg h2s, if_pos h4s, if_pos hrrc]
            exact c6_done s out _ h
          · have hm1 : s.mount_state = 1 := h.2.1 ⟨by omega, by omega⟩
            by_cases hdrc : r.deliver_rc ≠ 0
            · simp only [nfs_deliver, if_neg ha, if_neg h2s, if_pos h4s, if_neg hrrc,
                if_pos hdrc]
              rw [list_regroup2]
              apply c6_done
              refine c6inv_extend _ _ _ (c6inv_reoffset s out _ h) ?_
              intro hm
              rcases List.mem_append.mp hm with hm1x | hm2x
              · exact absurd hm1x (nfs_read_seeks_no_done s r)
              · simp at hm2x
            · by_cases heof : r.read_eof = false
              · simp only [nfs_deliver, if_neg ha, if_neg h2s, if_pos h4s, if_neg hrrc,
                  if_neg hdrc, if_pos heof]
                rw [list_regroup2]
                apply c6_step
                refine c6inv_extend _ _ _ ?_ ?_
                · refine ⟨h.1, fun _ => hm1, ?_, ?_, h.2.2.2.2⟩
                  · intro a2
                    exfalso
                    have a3 : s.nfs_state - 1 = 5 := a2
                    omega
                  · intro a2
                    exact h.2.2.2.1 a2
                · intro hm
                  rcases List.mem_append.mp hm with hm1x | hm2x
                  · exact absurd hm1x (nfs_read_seeks_no_done s r)
                  · simp at hm2x
              · simp only [nfs_deliver, if_neg ha, if_neg h2s, if_pos h4s, if_neg hrrc,
                  if_neg hdrc, if_neg heof]
                rw [nfs_mount_step_umnt]
                · refine ⟨h.1, ?_, ?_, ?_, ?_⟩
                  · intro a2
                    exfalso
                    have a3 : s.nfs_state + 1 ≤ 4 := a2.2
                    omega
                  · intro _
                    exact ⟨⟨s.mountpoint, by simp⟩, by simp⟩
                  · intro _
                    exact ⟨⟨s.mountpoint, by simp⟩, by simp⟩
                  · refine trace_ok_append _ _ h.2.2.2.2 ?_
                    intro hm
                    rcases List.mem_append.mp hm with hm1x | hm2x
                    · exact absurd hm1x (nfs_read_seeks_no_done s r)
                    · simp at hm2x
                · show s.mount_w = true
                  exact h.1
                · show s.mount_state + 1 = 2
                  omega
        · simp only [nfs_deliver, if_neg ha, if_neg h2s, if_neg h4s]
          exact c6_done s out _ h
  | pm_window b =>
    simp only [nfs_handle]
    apply c6_pm_step
    exact ⟨h.1, h.2.1, h.2.2.1, h.2.2.2.1, h.2.2.2.2⟩
  | mount_window b =>
    have hb : b = true := he b rfl
    subst hb
    simp only [nfs_handle]
    apply c6_mount_step
    exact ⟨rfl, h.2.1, h.2.2.1, h.2.2.2.1, h.2.2.2.2⟩
  | nfs_window b =>
    simp only [nfs_handle]
    apply c6_step
    exact ⟨h.1, h.2.1, h.2.2.1, h.2.2.2.1, h.2.2.2.2⟩
  | xfer_close rc =>
    simp only [nfs_handle]
    exact c6_done s out rc h

lemma c6_run (evs : List nfs_ev) :
    ∀ (s : nfs_request) (out : List nfs_out),
      c6inv s out →
      (∀ b, nfs_ev.mount_window b ∈ evs → b = true) →
      ∀ pre suf, out ++ (nfs_run s evs).2 = pre ++ nfs_out.shutdown_xfer 0 :: suf →
        umnt_seen pre := by
  induction evs with
  | nil =>
    intro s out h _ pre suf heq
    simp only [nfs_run, List.append_nil] at heq
    exact h.2.2.2.2 pre suf heq
  | cons e evs ih =>
    intro s out h hw pre suf heq
    have he : ∀ b, e = nfs_ev.mount_window b → b = true := fun b hb =>
      hw b (by rw [← hb]; exact List.mem_cons_self _ _)
    have hw2 : ∀ b, nfs_ev.mount_window b ∈ evs → b = true := fun b hb =>
      hw b (List.mem_cons_of_mem _ hb)
    refine ih (nfs_handle s e).1 (out ++ (nfs_handle s e).2)
      (c6_handle s out e he h) hw2 pre suf ?_
    rw [List.append_assoc]
    simpa [nfs_run] using heq

/-- C6: over any sequence of environment events in which the mount
transport window is never reported closed, every completion of the
data-transfer interface with status 0 is preceded in the driver's output
trace by a UMNT call and by the eof shutdown of the nfs session
interface: UMNT is issued (and the NFS session shut down) before DONE. -/
theorem claim_C6 (mountpoint filename : List Nat) (evs : List nfs_ev)
    (pre suf : List nfs_out)
    (hw : ∀ b, nfs_ev.mount_window b ∈ evs → b = true)
    (hrun : (nfs_run { nfs_init mountpoint filename with mount_w := true } evs).2 =
      pre ++ nfs_out.shutdown_xfer 0 :: suf) :
    (∃ d, nfs_out.umnt d ∈ pre) ∧ nfs_out.shutdown_nfs 0 ∈ pre := by
  have h0 : c6inv { nfs_init mountpoint filename with mount_w := true } [] := by
    refine ⟨rfl, ?_, ?_, ?_, ?_⟩
    · intro a
      exfalso
      have a2 : (1 : Nat) ≤ 0 := a.1
      omega
    · intro a
      exfalso
      have a2 : (0 : Nat) = 5 := a
      omega
    · intro a
      exfalso
      have a2 : (0 : Nat) = 2 := a
      omega
    · intro p q hq
      exfalso
      have hlen := congrArg List.length hq
      simp at hlen
      omega
  exact c6_run evs _ [] h0 hw pre suf (by simpa using hrun)

/-- The environment responses of the happy-path fetch: a successful
LOOKUP reply and a successful final READ reply. -/
def c6lookupReply : nfs_reply_ev :=
  { accept_state := 0, lookup_rc := 0, lookup_fh := [3],
    read_rc := 0, read_filesize := none, read_count := 0, read_eof := false,
    read_data := [], deliver_rc := 0 }

/-- The event sequence of a complete successful fetch: portmap window and
GETPORT replies, mount window and MNT reply, nfs window, LOOKUP reply,
final READ reply with eof, and the UMNT reply. -/
def c6happyEvs : List nfs_ev :=
  [nfs_ev.pm_window true,
   nfs_ev.pm_reply 0 0 635,
   nfs_ev.mount_window true,
   nfs_ev.pm_reply 0 0 2049,
   nfs_ev.mount_reply 0 0 [2],
   nfs_ev.nfs_window true,
   nfs_ev.nfs_reply c6lookupReply,
   nfs_ev.nfs_reply c5reply,
   nfs_ev.mount_reply 0 0 []]

/-- The outputs of the happy path up to (excluding) the completion with
status 0. -/
def c6happyPre : List nfs_out :=
  [nfs_out.getport_mount, nfs_out.connect_mount 635, nfs_out.getport_nfs,
   nfs_out.mnt [47, 101], nfs_out.connect_nfs 2049, nfs_out.shutdown_pm 0,
   nfs_out.lookup [2] [102], nfs_out.read [3] 0 1300,
   nfs_out.seek 5, nfs_out.seek 0, nfs_out.deliver [104, 105],
   nfs_out.shutdown_nfs 0, nfs_out.umnt [47, 101]]

theorem claim_C6_witness :
    nfs_ev.mount_window false ∉ c6happyEvs ∧
    (nfs_run { nfs_init [47, 101] [102] with mount_w := true } c6happyEvs).2 =
      c6happyPre ++ nfs_out.shutdown_xfer 0 ::
        [nfs_out.shutdown_pm 0, nfs_out.shutdown_mount 0, nfs_out.shutdown_nfs 0] ∧
    ((∃ d, nfs_out.umnt d ∈ c6happyPre) ∧ nfs_out.shutdown_nfs 0 ∈ c6happyPre) :=
  ⟨by decide, by decide,
   claim_C6 [47, 101] [102] c6happyEvs c6happyPre
     [nfs_out.shutdown_pm 0, nfs_out.shutdown_mount 0, nfs_out.shutdown_nfs 0]
     (fun b hb => by
       cases b with
       | false => exact absurd hb (by decide)
       | true => rfl)
     (by decide)⟩

/-! ## C9: splitting the URI path (nfs_open with POSIX basename / dirname) -/

/-- Remove trailing slash bytes (47). -/
def dropTrailingSlashes (p : List Nat) : List Nat :=
  (p.reverse.dropWhile (fun c => c == 47)).reverse

/-- Modelled from POSIX libgen.h basename (an external libc routine used
by nfs_open): strip trailing slashes, then take everything after the last
remaining slash; an empty path gives "." and an all-slash path "/". -/
def posix_basename (p : List Nat) : List Nat :=
  if p = [] then [46]
  else
    let q := dropTrailingSlashes p
    if q = [] then [47]
    else (q.reverse.takeWhile (fun c => !(c == 47))).reverse

/-- Modelled from POSIX libgen.h dirname (an external libc routine used
by nfs_open): strip trailing slashes, drop the last path component and
the slashes immediately before it; an empty remainder is "/" when the
path is absolute and "." otherwise. -/
def posix_dirname (p : List Nat) : List Nat :=
  if p = [] then [46]
  else
    let q := dropTrailingSlashes p
    if q = [] then [47]
    else
      let r := (q.reverse.dropWhile (fun c => !(c == 47))).dropWhile (fun c => c == 47)
      if r = [] then (if p.head? = some 47 then [47] else [46])
      else r.reverse

/-- nfs_open: nfs->filename = basename ( nfs->mountpoint ) is computed on
the duplicated URI path first, then nfs->mountpoint =
dirname ( nfs->mountpoint ); the pair is (directory passed to MNT and
UMNT, name passed to LOOKUP). -/
def nfs_open_split (path : List Nat) : List Nat × List Nat :=
  (posix_dirname path, posix_basename path)

/-- The directory portion as claim C9 words it: everything up to and
including the last slash. -/
def claim_dir_through_last_slash (p : List Nat) : List Nat :=
  (p.reverse.dropWhile (fun c => !(c == 47))).reverse

/-- C9 counterexample: for the URI path "/a/b" the directory handed to
MNT and UMNT is "/a" (POSIX dirname), not "everything up to and
including the last slash", which would be "/a/". -/
theorem claim_C9_cex :
    (nfs_open_split [47, 97, 47, 98]).1 ≠
      claim_dir_through_last_slash [47, 97, 47, 98] ∧
    claim_dir_through_last_slash [47, 97, 47, 98] = [47, 97, 47] ∧
    nfs_open_split [47, 97, 47, 98] = ([47, 97], [98]) := by
  decide

lemma takeWhile_ne_append (l r : List Nat) (h : 47 ∉ l) :
    (l ++ 47 :: r).takeWhile (fun c => !(c == 47)) = l := by
  induction l with
  | nil => simp
  | cons a t ih =>
    simp only [List.mem_cons, not_or] at h
    have hbe : (a == 47) = false := beq_eq_false_iff_ne.mpr (fun hc => h.1 hc.symm)
    simp [List.takeWhile_cons, hbe, ih h.2]

lemma dropWhile_ne_append (l r : List Nat) (h : 47 ∉ l) :
    (l ++ 47 :: r).dropWhile (fun c => !(c == 47)) = 47 :: r := by
  induction l with
  | nil => simp
  | cons a t ih =>
    simp only [List.mem_cons, not_or] at h
    have hbe : (a == 47) = false := beq_eq_false_iff_ne.mpr (fun hc => h.1 hc.symm)
    simp [List.dropWhile_cons, hbe, ih h.2]

/-- C9 corrected: write the URI path as d ++ slash ++ name with a
slash-free nonempty name, so that this slash is the last one.  The name
passed to LOOKUP is exactly name (the remainder after the last slash, as
the claim states), but the directory passed to MNT and UMNT is d with its
own trailing slashes stripped - the last slash is excluded - degenerating
to just a slash when nothing else remains. -/
theorem claim_C9_amended (d name : List Nat) (h1 : 47 ∉ name) (h2 : name ≠ []) :
    nfs_open_split (d ++ 47 :: name) =
      ((if d.all (fun c => c == 47) then [47] else dropTrailingSlashes d), name) := by
  have hpne : d ++ 47 :: name ≠ [] := by simp
  have hrev : (d ++ 47 :: name).reverse = name.reverse ++ 47 :: d.reverse := by simp
  obtain ⟨a, t, hat⟩ : ∃ a t, name.reverse = a :: t := by
    cases hnr : name.reverse with
    | nil => exact absurd (by simpa using congrArg List.reverse hnr) h2
    | cons a t => exact ⟨a, t, rfl⟩
  have hain : a ∈ name := by
    have hm : a ∈ name.reverse := hat ▸ List.mem_cons_self a t
    simpa using hm
  have hane : (a == 47) = false := beq_eq_false_iff_ne.mpr (fun hc => h1 (hc ▸ hain))
  have hq : dropTrailingSlashes (d ++ 47 :: name) = d ++ 47 :: name := by
    unfold dropTrailingSlashes
    rw [hrev, hat, List.cons_append, List.dropWhile_cons, hane]
    simp
    rw [← List.reverse_cons, ← hat, List.reverse_reverse]
  have hnrev : 47 ∉ name.reverse := by simpa using h1
  have hb : posix_basename (d ++ 47 :: name) = name := by
    unfold posix_basename
    rw [if_neg hpne, hq, if_neg hpne, hrev,
      takeWhile_ne_append name.reverse d.reverse hnrev, List.reverse_reverse]
  have hd : posix_dirname (d ++ 47 :: name) =
      (if d.all (fun c => c == 47) then [47] else dropTrailingSlashes d) := by
    unfold posix_dirname
    rw [if_neg hpne, hq, if_neg hpne, hrev,
      dropWhile_ne_append name.reverse d.reverse hnrev, List.dropWhile_cons]
    simp only [beq_self_eq_true, if_true]
    by_cases hall : d.all (fun c => c == 47)
    · have hre : d.reverse.dropWhile (fun c => c == 47) = [] := by
        rw [List.dropWhile_eq_nil_iff]
        intro x hx
        exact (List.all_eq_true.mp hall) x (by simpa using hx)
      rw [hre, if_pos rfl, if_pos hall]
      have hh : (d ++ 47 :: name).head? = some 47 := by
        cases d with
        | nil => simp
        | cons c0 dt =>
          have hc0 : (c0 == 47) = true :=
            (List.all_eq_true.mp hall) c0 (List.mem_cons_self _ _)
          have hc0e : c0 = 47 := by simpa using hc0
          simp [hc0e]
      rw [if_pos hh]
    · have hre : d.reverse.dropWhile (fun c => c == 47) ≠ [] := by
        rw [Ne, List.dropWhile_eq_nil_iff]
        intro hcon
        apply hall
        rw [List.all_eq_true]
        intro x hx
        exact hcon x (by simpa using hx)
      rw [if_neg hre, if_neg hall]
      rfl
  rw [nfs_open_split, hd, hb]

theorem claim_C9_witness :
    47 ∉ ([98] : List Nat) ∧ ([98] : List Nat) ≠ [] ∧
    nfs_open_split ([47, 97] ++ 47 :: [98]) =
      ((if ([47, 97] : List Nat).all (fun c => c == 47) then [47]
        else dropTrailingSlashes [47, 97]), [98]) :=
  ⟨by decide, by decide, claim_C9_amended [47, 97] [98] (by decide) (by decide)⟩
